import Mathlib

/-! Shallow embedding of the Solidity contracts of this repository
(`DAO.sol`, `Vault.sol`, `DAOFactory.sol`, `VaultFactory.sol`) and proofs
checking the specification's claims about them.

Addresses and `uint256` values are modelled as `Nat`; the zero address is `0`.
A Solidity revert is modelled by `Except.error` carrying the revert reason, so
an `.error` result means the caller keeps the pre-call state unchanged, and
`.ok s` is the post-state of a successful call.  `uint256` subtractions that
the source performs unchecked (Solidity 0.8 panics on underflow) are guarded
explicitly.  The outcome of an external asset transfer
(`recipient.call{value : ...}`, `IERC20.transfer`, `safeTransfer`, ...) is an
explicit boolean input (`transferOk`) of the embedded function, since it is
decided by foreign code. -/

abbrev Addr := Nat

/-- Solidity mapping read: association-list lookup with default `d`. -/
def alookup {β : Type} (d : β) (m : List (Addr × β)) (k : Addr) : β :=
  match m.find? (fun e => e.fst == k) with
  | some e => e.snd
  | none => d

/-- Solidity mapping write. -/
def aset {β : Type} (m : List (Addr × β)) (k : Addr) (v : β) : List (Addr × β) :=
  (k, v) :: m.filter (fun e => e.fst != k)

/-- Solidity `delete m[k]`. -/
def adel {β : Type} (m : List (Addr × β)) (k : Addr) : List (Addr × β) :=
  m.filter (fun e => e.fst != k)

/-- Replace the first occurrence of `a` in a list by `b`. -/
def replaceFirst : List Addr → Addr → Addr → List Addr
  | [], _, _ => []
  | x :: xs, a, b => if x = a then b :: xs else x :: replaceFirst xs a b

/-- The swap-with-last removal loop used by `Vault.removeSigner`,
`DAO.removeMember`, `DAOFactory.emergencyRemoveDAO` and
`VaultFactory.emergencyRemoveVault`: the first entry equal to `a` is
overwritten with the array's last entry and the last entry is popped; a list
not containing `a` is returned unchanged. -/
def swapRemove (l : List Addr) (a : Addr) : List Addr :=
  if a ∈ l then (replaceFirst l a (l.getLast?.getD 0)).dropLast else l

/-- `true` iff the call reverted. -/
def isRevert {α : Type} : Except String α → Bool
  | .error _ => true
  | .ok _ => false

/-! ## Vault.sol -/

/-- `Vault.SpendingProposal`; `hasApproved` is the set of approver addresses
(the `mapping(address => bool)` of the source). -/
structure SpendingProposal where
  id : Nat
  token : Addr
  amount : Nat
  recipient : Addr
  description : String
  approvals : Nat
  deadline : Nat
  executed : Bool
  hasApproved : List Addr
deriving DecidableEq

/-- The all-zero record an unset Solidity mapping slot reads as. -/
def SpendingProposal.zero : SpendingProposal :=
  ⟨0, 0, 0, 0, "", 0, 0, false, []⟩

/-- Storage of one `Vault` contract instance. `owner` and `paused` come from
the inherited `Ownable` and `Pausable`.  `authorizedSigners` is the
`mapping(address => bool)` (as the list of addresses mapped to `true`),
`signerList` the separate array the source also maintains. -/
structure VaultState where
  owner : Addr
  paused : Bool
  daoAddress : Addr
  withdrawalLimit : Nat
  requiredSignatures : Nat
  spendingProposalCount : Nat
  authorizedSigners : List Addr
  signerList : List Addr
  spendingProposals : List (Nat × SpendingProposal)
  tokenBalances : List (Addr × Nat)
  supportedTokens : List Addr
deriving DecidableEq

def Vault.MAX_SIGNERS : Nat := 20

def Vault.MIN_SIGNATURES : Nat := 1

def Vault.PROPOSAL_DURATION : Nat := 7 * 24 * 60 * 60

/-- The `onlyAuthorizedSigner` modifier's condition. -/
def Vault.isAuthorized (s : VaultState) (sender : Addr) : Prop :=
  sender ∈ s.authorizedSigners ∨ sender = s.owner

instance (s : VaultState) (sender : Addr) : Decidable (Vault.isAuthorized s sender) := by
  unfold Vault.isAuthorized; infer_instance

/-- `Vault` constructor. `sender` is the deployer (`msg.sender`), who becomes
owner via `Ownable` and is pushed as the first authorized signer. -/
def Vault.construct (sender daoAddress : Addr) (withdrawalLimit requiredSignatures : Nat) :
    Except String VaultState :=
  if daoAddress = 0 then .error "Invalid DAO address"
  else if ¬ Vault.MIN_SIGNATURES ≤ requiredSignatures then .error "Invalid signature requirement"
  else .ok
    { owner := sender
      paused := false
      daoAddress := daoAddress
      withdrawalLimit := withdrawalLimit
      requiredSignatures := requiredSignatures
      spendingProposalCount := 0
      authorizedSigners := [sender]
      signerList := [sender]
      spendingProposals := []
      tokenBalances := []
      supportedTokens := [] }

/-- `Ownable.transferOwnership`. -/
def Vault.transferOwnership (s : VaultState) (sender newOwner : Addr) :
    Except String VaultState :=
  if sender ≠ s.owner then .error "Ownable: caller is not the owner"
  else if newOwner = 0 then .error "Ownable: new owner is the zero address"
  else .ok { s with owner := newOwner }

/-- `Vault.depositETH` (`msg.value` is `msgValue`). -/
def Vault.depositETH (s : VaultState) (msgValue : Nat) : Except String VaultState :=
  if s.paused then .error "Pausable: paused"
  else if msgValue = 0 then .error "Deposit amount must be greater than 0"
  else .ok { s with
    tokenBalances := aset s.tokenBalances 0 (alookup 0 s.tokenBalances 0 + msgValue) }

/-- `Vault._addSupportedToken`. -/
def Vault.addSupportedToken (l : List Addr) (token : Addr) : List Addr :=
  if token ∈ l then l else l ++ [token]

/-- `Vault.depositToken`; `transferOk` is the outcome of the
`safeTransferFrom`, which reverts the call when it fails. -/
def Vault.depositToken (s : VaultState) (_sender token : Addr) (amount : Nat)
    (transferOk : Bool) : Except String VaultState :=
  if s.paused then .error "Pausable: paused"
  else if token = 0 then .error "Invalid token address"
  else if amount = 0 then .error "Deposit amount must be greater than 0"
  else if ¬ transferOk then .error "SafeERC20: ERC20 operation did not succeed"
  else .ok { s with
    tokenBalances := aset s.tokenBalances token (alookup 0 s.tokenBalances token + amount)
    supportedTokens := Vault.addSupportedToken s.supportedTokens token }

/-- `Vault.withdraw`.  On transfer failure (`transferOk = false`) the whole
call reverts: the ETH branch does `require(success, "ETH transfer failed")`
and the ERC20 branch uses the reverting `safeTransfer`. -/
def Vault.withdraw (s : VaultState) (sender token : Addr) (amount : Nat)
    (recipient : Addr) (transferOk : Bool) : Except String VaultState :=
  if sender ≠ s.daoAddress then .error "Only DAO can call this function"
  else if s.paused then .error "Pausable: paused"
  else if amount = 0 then .error "Withdrawal amount must be greater than 0"
  else if recipient = 0 then .error "Invalid recipient address"
  else if s.withdrawalLimit < amount then .error "Amount exceeds withdrawal limit"
  else if alookup 0 s.tokenBalances token < amount then .error "Insufficient balance"
  else if token = 0 then
    if transferOk then
      .ok { s with
        tokenBalances := aset s.tokenBalances 0 (alookup 0 s.tokenBalances 0 - amount) }
    else .error "ETH transfer failed"
  else
    if transferOk then
      .ok { s with
        tokenBalances := aset s.tokenBalances token (alookup 0 s.tokenBalances token - amount) }
    else .error "SafeERC20: ERC20 operation did not succeed"

/-- `Vault.createSpendingProposal` (`now` is `block.timestamp`); returns the
new proposal id alongside the post-state. -/
def Vault.createSpendingProposal (s : VaultState) (sender token : Addr) (amount : Nat)
    (recipient : Addr) (description : String) (now : Nat) :
    Except String (VaultState × Nat) :=
  if ¬ Vault.isAuthorized s sender then .error "Not an authorized signer"
  else if s.paused then .error "Pausable: paused"
  else if ¬ s.withdrawalLimit < amount then .error "Use direct withdrawal for small amounts"
  else if recipient = 0 then .error "Invalid recipient address"
  else if alookup 0 s.tokenBalances token < amount then .error "Insufficient balance"
  else if description.length = 0 then .error "Description cannot be empty"
  else
    let pid := s.spendingProposalCount + 1
    .ok ({ s with
      spendingProposalCount := pid
      spendingProposals := aset s.spendingProposals pid
        { id := pid, token := token, amount := amount, recipient := recipient
          description := description, approvals := 0
          deadline := now + Vault.PROPOSAL_DURATION, executed := false
          hasApproved := [] } }, pid)

/-- `Vault._executeSpendingProposal`.  The unchecked
`tokenBalances[token] -= amount` panics (reverts) on underflow; on transfer
failure the state changes are undone in place and the call still succeeds. -/
def Vault.executeSpendingProposalInternal (s : VaultState) (proposalId : Nat)
    (transferOk : Bool) : Except String VaultState :=
  let p := alookup SpendingProposal.zero s.spendingProposals proposalId
  if alookup 0 s.tokenBalances p.token < p.amount then
    .error "panic: arithmetic underflow"
  else
    let s1 : VaultState := { s with
      spendingProposals := aset s.spendingProposals proposalId { p with executed := true }
      tokenBalances := aset s.tokenBalances p.token
        (alookup 0 s.tokenBalances p.token - p.amount) }
    if transferOk then .ok s1
    else
      let p1 := alookup SpendingProposal.zero s1.spendingProposals proposalId
      .ok { s1 with
        spendingProposals := aset s1.spendingProposals proposalId { p1 with executed := false }
        tokenBalances := aset s1.tokenBalances p.token
          (alookup 0 s1.tokenBalances p.token + p.amount) }

/-- `Vault.approveSpendingProposal`; auto-executes once the approval count
reaches `requiredSignatures`. -/
def Vault.approveSpendingProposal (s : VaultState) (sender : Addr) (proposalId now : Nat)
    (transferOk : Bool) : Except String VaultState :=
  if ¬ Vault.isAuthorized s sender then .error "Not an authorized signer"
  else if s.paused then .error "Pausable: paused"
  else if ¬ (1 ≤ proposalId ∧ proposalId ≤ s.spendingProposalCount) then
    .error "Invalid proposal ID"
  else
    let p := alookup SpendingProposal.zero s.spendingProposals proposalId
    if ¬ now < p.deadline then .error "Proposal expired"
    else if p.executed then .error "Proposal already executed"
    else if sender ∈ p.hasApproved then .error "Already approved"
    else
      let p1 : SpendingProposal :=
        { p with hasApproved := sender :: p.hasApproved, approvals := p.approvals + 1 }
      let s1 : VaultState :=
        { s with spendingProposals := aset s.spendingProposals proposalId p1 }
      if s.requiredSignatures ≤ p1.approvals then
        Vault.executeSpendingProposalInternal s1 proposalId transferOk
      else .ok s1

/-- `Vault.executeSpendingProposal` (the public entry, callable by anyone). -/
def Vault.executeSpendingProposal (s : VaultState) (proposalId : Nat) (transferOk : Bool) :
    Except String VaultState :=
  if s.paused then .error "Pausable: paused"
  else if ¬ (1 ≤ proposalId ∧ proposalId ≤ s.spendingProposalCount) then
    .error "Invalid proposal ID"
  else
    let p := alookup SpendingProposal.zero s.spendingProposals proposalId
    if p.approvals < s.requiredSignatures then .error "Not enough approvals"
    else if p.executed then .error "Proposal already executed"
    else if alookup 0 s.tokenBalances p.token < p.amount then .error "Insufficient balance"
    else Vault.executeSpendingProposalInternal s proposalId transferOk

/-- `Vault.addSigner`. -/
def Vault.addSigner (s : VaultState) (sender signer : Addr) : Except String VaultState :=
  if sender ≠ s.owner then .error "Ownable: caller is not the owner"
  else if s.paused then .error "Pausable: paused"
  else if signer = 0 then .error "Invalid signer address"
  else if signer ∈ s.authorizedSigners then .error "Already a signer"
  else if ¬ s.signerList.length < Vault.MAX_SIGNERS then .error "Max signers reached"
  else .ok { s with
    authorizedSigners := signer :: s.authorizedSigners
    signerList := s.signerList ++ [signer] }

/-- `Vault.removeSigner`. -/
def Vault.removeSigner (s : VaultState) (sender signer : Addr) : Except String VaultState :=
  if sender ≠ s.owner then .error "Ownable: caller is not the owner"
  else if s.paused then .error "Pausable: paused"
  else if signer = 0 then .error "Invalid signer address"
  else if ¬ signer ∈ s.authorizedSigners then .error "Not a signer"
  else if ¬ s.requiredSignatures < s.signerList.length then
    .error "Cannot remove signer below required threshold"
  else .ok { s with
    authorizedSigners := s.authorizedSigners.filter (fun x => x ≠ signer)
    signerList := swapRemove s.signerList signer }

/-- `Vault.updateWithdrawalLimit` — the source performs no bounds check. -/
def Vault.updateWithdrawalLimit (s : VaultState) (sender : Addr) (newLimit : Nat) :
    Except String VaultState :=
  if sender ≠ s.owner then .error "Ownable: caller is not the owner"
  else .ok { s with withdrawalLimit := newLimit }

/-- `Vault.updateRequiredSignatures`. -/
def Vault.updateRequiredSignatures (s : VaultState) (sender : Addr)
    (newRequiredSignatures : Nat) : Except String VaultState :=
  if sender ≠ s.owner then .error "Ownable: caller is not the owner"
  else if ¬ Vault.MIN_SIGNATURES ≤ newRequiredSignatures then
    .error "Invalid signature requirement"
  else if ¬ newRequiredSignatures ≤ s.signerList.length then
    .error "Required signatures exceed signer count"
  else .ok { s with requiredSignatures := newRequiredSignatures }

/-- `Vault.emergencyPause` (`Pausable._pause` itself requires not-paused). -/
def Vault.emergencyPause (s : VaultState) (sender : Addr) : Except String VaultState :=
  if ¬ Vault.isAuthorized s sender then .error "Not an authorized signer"
  else if s.paused then .error "Pausable: paused"
  else .ok { s with paused := true }

/-- `Vault.unpause`. -/
def Vault.unpause (s : VaultState) (sender : Addr) : Except String VaultState :=
  if sender ≠ s.owner then .error "Ownable: caller is not the owner"
  else if ¬ s.paused then .error "Pausable: not paused"
  else .ok { s with paused := false }

/-- The `receive()` fallback: credits any positive `msg.value` unconditionally
(there is no pause guard on it); it never reverts. -/
def Vault.receiveETH (s : VaultState) (msgValue : Nat) : VaultState :=
  if 0 < msgValue then
    { s with tokenBalances := aset s.tokenBalances 0 (alookup 0 s.tokenBalances 0 + msgValue) }
  else s

/-- One external call on a `Vault` instance, with all environment inputs
(`msg.sender`, `msg.value`, `block.timestamp`, transfer outcomes) packaged as
operation arguments. -/
inductive VaultOp where
  | depositETH (msgValue : Nat)
  | depositToken (sender token : Addr) (amount : Nat) (transferOk : Bool)
  | withdraw (sender token : Addr) (amount : Nat) (recipient : Addr) (transferOk : Bool)
  | createSpendingProposal (sender token : Addr) (amount : Nat) (recipient : Addr)
      (description : String) (now : Nat)
  | approveSpendingProposal (sender : Addr) (proposalId now : Nat) (transferOk : Bool)
  | executeSpendingProposal (proposalId : Nat) (transferOk : Bool)
  | addSigner (sender signer : Addr)
  | removeSigner (sender signer : Addr)
  | updateWithdrawalLimit (sender : Addr) (newLimit : Nat)
  | updateRequiredSignatures (sender : Addr) (newRequiredSignatures : Nat)
  | emergencyPause (sender : Addr)
  | unpause (sender : Addr)
  | receiveETH (msgValue : Nat)
  | transferOwnership (sender newOwner : Addr)

/-- Dispatch one vault call. -/
def vaultStep (s : VaultState) : VaultOp → Except String VaultState
  | .depositETH v => Vault.depositETH s v
  | .depositToken sender token amount ok => Vault.depositToken s sender token amount ok
  | .withdraw sender token amount recipient ok =>
      Vault.withdraw s sender token amount recipient ok
  | .createSpendingProposal sender token amount recipient descr now =>
      (Vault.createSpendingProposal s sender token amount recipient descr now).map Prod.fst
  | .approveSpendingProposal sender pid now ok =>
      Vault.approveSpendingProposal s sender pid now ok
  | .executeSpendingProposal pid ok => Vault.executeSpendingProposal s pid ok
  | .addSigner sender signer => Vault.addSigner s sender signer
  | .removeSigner sender signer => Vault.removeSigner s sender signer
  | .updateWithdrawalLimit sender n => Vault.updateWithdrawalLimit s sender n
  | .updateRequiredSignatures sender n => Vault.updateRequiredSignatures s sender n
  | .emergencyPause sender => Vault.emergencyPause s sender
  | .unpause sender => Vault.unpause s sender
  | .receiveETH v => .ok (Vault.receiveETH s v)
  | .transferOwnership sender newOwner => Vault.transferOwnership s sender newOwner

/-- Run a sequence of vault calls; a reverting call leaves the state as it
was (the transaction rolls back). -/
def vaultRun (s : VaultState) (ops : List VaultOp) : VaultState :=
  ops.foldl (fun st op => match vaultStep st op with | .ok s1 => s1 | .error _ => st) s

/-! ## DAO.sol -/

/-- `DAO.Proposal`; `hasVoted` is the set of voter addresses. -/
structure Proposal where
  id : Nat
  title : String
  description : String
  yesVotes : Nat
  noVotes : Nat
  deadline : Nat
  executed : Bool
  proposer : Addr
  hasVoted : List Addr
deriving DecidableEq

/-- The all-zero record an unset Solidity mapping slot reads as. -/
def Proposal.zero : Proposal :=
  ⟨0, "", "", 0, 0, 0, false, 0, []⟩

/-- Storage of one `DAO` contract instance.  `members` is the
`mapping(address => bool)` (as the list of addresses mapped to `true`),
`memberList` the separate array the source also maintains. -/
structure DAOState where
  name : String
  owner : Addr
  paused : Bool
  members : List Addr
  memberList : List Addr
  proposalCount : Nat
  memberCount : Nat
  attachedVault : Addr
  quorumPercentage : Nat
  proposals : List (Nat × Proposal)
deriving DecidableEq

def DAO.VOTING_PERIOD : Nat := 7 * 24 * 60 * 60

def DAO.MIN_PROPOSAL_DURATION : Nat := 60 * 60

def DAO.MAX_PROPOSAL_DURATION : Nat := 30 * 24 * 60 * 60

/-- The `onlyMember` modifier's condition. -/
def DAO.isMember (s : DAOState) (sender : Addr) : Prop :=
  sender ∈ s.members ∨ sender = s.owner

instance (s : DAOState) (sender : Addr) : Decidable (DAO.isMember s sender) := by
  unfold DAO.isMember; infer_instance

/-- `DAO` constructor: the owner becomes the sole initial member and
`quorumPercentage` starts at 51. -/
def DAO.construct (name : String) (ownerA : Addr) : Except String DAOState :=
  if name.length = 0 then .error "DAO name cannot be empty"
  else if ownerA = 0 then .error "Invalid owner address"
  else .ok
    { name := name
      owner := ownerA
      paused := false
      members := [ownerA]
      memberList := [ownerA]
      proposalCount := 0
      memberCount := 1
      attachedVault := 0
      quorumPercentage := 51
      proposals := [] }

/-- `DAO.addMember`. -/
def DAO.addMember (s : DAOState) (sender member : Addr) : Except String DAOState :=
  if sender ≠ s.owner then .error "Ownable: caller is not the owner"
  else if s.paused then .error "Pausable: paused"
  else if member = 0 then .error "Invalid member address"
  else if member ∈ s.members then .error "Already a member"
  else if ¬ s.memberCount < 1000 then .error "Max members reached"
  else .ok { s with
    members := member :: s.members
    memberList := s.memberList ++ [member]
    memberCount := s.memberCount + 1 }

/-- `DAO.removeMember` (the unchecked `memberCount--` is guarded). -/
def DAO.removeMember (s : DAOState) (sender member : Addr) : Except String DAOState :=
  if sender ≠ s.owner then .error "Ownable: caller is not the owner"
  else if s.paused then .error "Pausable: paused"
  else if member = 0 then .error "Invalid member address"
  else if ¬ member ∈ s.members then .error "Not a member"
  else if member = s.owner then .error "Cannot remove owner"
  else if s.memberCount = 0 then .error "panic: arithmetic underflow"
  else .ok { s with
    members := s.members.filter (fun x => x ≠ member)
    memberList := swapRemove s.memberList member
    memberCount := s.memberCount - 1 }

/-- `DAO.executeProposal` (`now` is `block.timestamp`). -/
def DAO.executeProposal (s : DAOState) (proposalId now : Nat) : Except String DAOState :=
  if s.paused then .error "Pausable: paused"
  else if ¬ (1 ≤ proposalId ∧ proposalId ≤ s.proposalCount) then .error "Invalid proposal ID"
  else
    let p := alookup Proposal.zero s.proposals proposalId
    if now < p.deadline then .error "Voting period not ended"
    else if p.executed then .error "Proposal already executed"
    else if p.yesVotes + p.noVotes < s.memberCount * s.quorumPercentage / 100 then
      .error "Quorum not reached"
    else if ¬ p.noVotes < p.yesVotes then .error "Proposal rejected"
    else .ok { s with proposals := aset s.proposals proposalId { p with executed := true } }

/-- One `addMember`/`removeMember` call (the operations claim C4 ranges over). -/
inductive MemberOp where
  | add (sender member : Addr)
  | remove (sender member : Addr)

/-- Dispatch one membership call. -/
def DAO.memberStep (s : DAOState) : MemberOp → Except String DAOState
  | .add sender m => DAO.addMember s sender m
  | .remove sender m => DAO.removeMember s sender m

/-- Run a sequence of membership calls; reverting calls change nothing. -/
def DAO.memberRun (s : DAOState) (ops : List MemberOp) : DAOState :=
  ops.foldl (fun st op => match DAO.memberStep st op with | .ok s1 => s1 | .error _ => st) s

/-! ## VaultFactory.sol -/

/-- Storage of the `VaultFactory` contract.  `selfAddr` is the factory
contract's own address: it is the `msg.sender` the `Vault` constructor sees
when the factory deploys a vault with `new Vault(...)`. -/
structure VaultFactoryState where
  selfAddr : Addr
  owner : Addr
  daoVaults : List (Addr × List Addr)
  vaultToDAO : List (Addr × Addr)
  allVaults : List Addr
  vaultCount : Nat
  defaultWithdrawalLimit : Nat
  defaultRequiredSignatures : Nat
deriving DecidableEq

def VaultFactory.MAX_VAULTS_PER_DAO : Nat := 5

def VaultFactory.MIN_WITHDRAWAL_LIMIT : Nat := 10 ^ 16

def VaultFactory.MAX_WITHDRAWAL_LIMIT : Nat := 1000 * 10 ^ 18

def VaultFactory.MIN_REQUIRED_SIGNATURES : Nat := 1

def VaultFactory.MAX_REQUIRED_SIGNATURES : Nat := 20

/-- `VaultFactory._createVault`.  `newVaultAddr` is the fresh address the EVM
assigns to the deployed vault; the new vault's state is returned alongside
the factory's post-state.  The factory deploys the vault (so the vault's
constructor runs with `msg.sender = f.selfAddr`) and then transfers the
vault's ownership to the caller. -/
def VaultFactory.createVaultInternal (f : VaultFactoryState) (sender daoAddress : Addr)
    (withdrawalLimit requiredSignatures : Nat) (newVaultAddr : Addr) :
    Except String (VaultFactoryState × VaultState) :=
  if daoAddress = 0 then .error "Invalid DAO address"
  else if ¬ (VaultFactory.MIN_WITHDRAWAL_LIMIT ≤ withdrawalLimit ∧
      withdrawalLimit ≤ VaultFactory.MAX_WITHDRAWAL_LIMIT) then
    .error "Invalid withdrawal limit"
  else if ¬ (VaultFactory.MIN_REQUIRED_SIGNATURES ≤ requiredSignatures ∧
      requiredSignatures ≤ VaultFactory.MAX_REQUIRED_SIGNATURES) then
    .error "Invalid required signatures"
  else if ¬ (alookup [] f.daoVaults daoAddress).length < VaultFactory.MAX_VAULTS_PER_DAO then
    .error "Max vaults per DAO exceeded"
  else
    match Vault.construct f.selfAddr daoAddress withdrawalLimit requiredSignatures with
    | .error e => .error e
    | .ok v =>
      match Vault.transferOwnership v f.selfAddr sender with
      | .error e => .error e
      | .ok v1 => .ok
          ({ f with
            daoVaults := aset f.daoVaults daoAddress
              (alookup [] f.daoVaults daoAddress ++ [newVaultAddr])
            vaultToDAO := aset f.vaultToDAO newVaultAddr daoAddress
            allVaults := f.allVaults ++ [newVaultAddr]
            vaultCount := f.vaultCount + 1 }, v1)

/-- `VaultFactory.createVault` (uses the default required signatures). -/
def VaultFactory.createVault (f : VaultFactoryState) (sender daoAddress : Addr)
    (withdrawalLimit : Nat) (newVaultAddr : Addr) :
    Except String (VaultFactoryState × VaultState) :=
  VaultFactory.createVaultInternal f sender daoAddress withdrawalLimit
    f.defaultRequiredSignatures newVaultAddr

/-- `VaultFactory.createVaultWithCustomParams`. -/
def VaultFactory.createVaultWithCustomParams (f : VaultFactoryState) (sender daoAddress : Addr)
    (withdrawalLimit requiredSignatures : Nat) (newVaultAddr : Addr) :
    Except String (VaultFactoryState × VaultState) :=
  VaultFactory.createVaultInternal f sender daoAddress withdrawalLimit requiredSignatures
    newVaultAddr

/-- `VaultFactory.createDefaultVault`. -/
def VaultFactory.createDefaultVault (f : VaultFactoryState) (sender daoAddress : Addr)
    (newVaultAddr : Addr) : Except String (VaultFactoryState × VaultState) :=
  VaultFactory.createVaultInternal f sender daoAddress f.defaultWithdrawalLimit
    f.defaultRequiredSignatures newVaultAddr

/-! ## DAOFactory.sol -/

/-- Storage of the `DAOFactory` contract. -/
structure DAOFactoryState where
  owner : Addr
  paused : Bool
  userDAOs : List (Addr × List Addr)
  daoToVault : List (Addr × Addr)
  vaultToDAO : List (Addr × Addr)
  allDAOs : List Addr
  daoCount : Nat
deriving DecidableEq

def DAOFactory.MAX_DAOS_PER_USER : Nat := 10

/-- `DAOFactory.getUserDAOs`. -/
def DAOFactory.getUserDAOs (s : DAOFactoryState) (user : Addr) : List Addr :=
  alookup [] s.userDAOs user

/-- `DAOFactory.createDAO`; `newDaoAddr` is the fresh address the EVM assigns
to the deployed `DAO`. -/
def DAOFactory.createDAO (s : DAOFactoryState) (sender : Addr) (name : String)
    (newDaoAddr : Addr) : Except String (DAOFactoryState × Addr) :=
  if s.paused then .error "Pausable: paused"
  else if name.length = 0 then .error "DAO name cannot be empty"
  else if 100 < name.length then .error "DAO name too long"
  else if ¬ (alookup [] s.userDAOs sender).length < DAOFactory.MAX_DAOS_PER_USER then
    .error "Max DAOs per user exceeded"
  else
    match DAO.construct name sender with
    | .error e => .error e
    | .ok _ => .ok
        ({ s with
          userDAOs := aset s.userDAOs sender (alookup [] s.userDAOs sender ++ [newDaoAddr])
          allDAOs := s.allDAOs ++ [newDaoAddr]
          daoCount := s.daoCount + 1 }, newDaoAddr)

/-- `DAOFactory.emergencyRemoveDAO` (the unchecked `daoCount--` is guarded:
it panics, i.e. reverts, when `daoCount` is zero). -/
def DAOFactory.emergencyRemoveDAO (s : DAOFactoryState) (sender daoAddress : Addr) :
    Except String DAOFactoryState :=
  if sender ≠ s.owner then .error "Ownable: caller is not the owner"
  else if daoAddress = 0 then .error "Invalid DAO address"
  else
    let vaultAddress := alookup 0 s.daoToVault daoAddress
    if s.daoCount = 0 then .error "panic: arithmetic underflow"
    else .ok { s with
      allDAOs := swapRemove s.allDAOs daoAddress
      daoToVault := if vaultAddress ≠ 0 then adel s.daoToVault daoAddress else s.daoToVault
      vaultToDAO := if vaultAddress ≠ 0 then adel s.vaultToDAO vaultAddress else s.vaultToDAO
      daoCount := s.daoCount - 1 }

/-! ## Lemmas about the mapping and array-removal helpers -/

theorem alookup_cons {β : Type} (d : β) (e : Addr × β) (m : List (Addr × β)) (k : Addr) :
    alookup d (e :: m) k = if e.fst = k then e.snd else alookup d m k := by
  by_cases h : e.fst = k
  · simp [alookup, List.find?_cons_of_pos, h]
  · simp [alookup, List.find?_cons_of_neg, h]

theorem alookup_filter_ne {β : Type} (d : β) (m : List (Addr × β)) (k k' : Addr)
    (h : k' ≠ k) :
    alookup d (m.filter (fun e => e.fst != k)) k' = alookup d m k' := by
  induction m with
  | nil => rfl
  | cons e m ih =>
    rw [List.filter_cons]
    by_cases he : e.fst = k
    · have h1 : (e.fst != k) = false := by simp [he]
      have h2 : ¬ e.fst = k' := by rw [he]; exact fun hh => h hh.symm
      rw [h1, if_neg (by simp), ih, alookup_cons, if_neg h2]
    · have h1 : (e.fst != k) = true := by simp [he]
      rw [h1, if_pos rfl, alookup_cons, alookup_cons, ih]

theorem alookup_aset_self {β : Type} (d : β) (m : List (Addr × β)) (k : Addr) (v : β) :
    alookup d (aset m k v) k = v := by
  rw [aset, alookup_cons]; simp

theorem alookup_aset_ne {β : Type} (d : β) (m : List (Addr × β)) (k k' : Addr) (v : β)
    (h : k' ≠ k) : alookup d (aset m k v) k' = alookup d m k' := by
  rw [aset, alookup_cons]
  have : ¬ (k, v).fst = k' := fun hh => h hh.symm
  simp only [this, if_false]
  exact alookup_filter_ne d m k k' h

theorem alookup_adel_self {β : Type} (d : β) (m : List (Addr × β)) (k : Addr) :
    alookup d (adel m k) k = d := by
  induction m with
  | nil => rfl
  | cons e m ih =>
    rw [adel, List.filter_cons]
    by_cases he : e.fst = k
    · have h1 : (e.fst != k) = false := by simp [he]
      rw [h1, if_neg (by simp)]; exact ih
    · have h1 : (e.fst != k) = true := by simp [he]
      rw [h1, if_pos rfl, alookup_cons, if_neg he]; exact ih

theorem alookup_adel_ne {β : Type} (d : β) (m : List (Addr × β)) (k k' : Addr)
    (h : k' ≠ k) : alookup d (adel m k) k' = alookup d m k' :=
  alookup_filter_ne d m k k' h

theorem replaceFirst_append (p q : List Addr) (a b : Addr) (hp : a ∉ p) :
    replaceFirst (p ++ a :: q) a b = p ++ b :: q := by
  induction p with
  | nil => simp [replaceFirst]
  | cons x xs ih =>
    have hx : ¬ x = a := fun h => hp (h ▸ List.mem_cons_self x xs)
    have hxs : a ∉ xs := fun h => hp (List.mem_cons_of_mem _ h)
    simp only [List.cons_append, replaceFirst, hx, if_false, List.append_eq, ih hxs]

theorem swapRemove_concat_self (p : List Addr) (a : Addr) (hp : a ∉ p) :
    swapRemove (p ++ [a]) a = p := by
  have ha : a ∈ p ++ [a] := List.mem_append_right p (List.mem_singleton.mpr rfl)
  rw [swapRemove, if_pos ha, List.getLast?_concat, Option.getD_some,
    replaceFirst_append p [] a a hp, List.dropLast_concat]

theorem swapRemove_middle (p q : List Addr) (a b : Addr) (hp : a ∉ p) :
    swapRemove (p ++ a :: (q ++ [b])) a = p ++ b :: q := by
  have ha : a ∈ p ++ a :: (q ++ [b]) :=
    List.mem_append_right p (List.mem_cons_self a _)
  have hlast : (p ++ a :: (q ++ [b])).getLast? = some b := by
    have : p ++ a :: (q ++ [b]) = (p ++ a :: q) ++ [b] := by simp
    rw [this, List.getLast?_concat]
  rw [swapRemove, if_pos ha, hlast, Option.getD_some, replaceFirst_append p (q ++ [b]) a b hp]
  have : p ++ b :: (q ++ [b]) = (p ++ b :: q) ++ [b] := by simp
  rw [this, List.dropLast_concat]

/-- Effect of the swap-with-last removal on a duplicate-free list containing
the removed element: one shorter, removes exactly that element, stays
duplicate-free. -/
theorem swapRemove_spec (l : List Addr) (a : Addr) (hn : l.Nodup) (ha : a ∈ l) :
    (swapRemove l a).length + 1 = l.length
    ∧ (∀ x, x ∈ swapRemove l a ↔ x ∈ l ∧ x ≠ a)
    ∧ (swapRemove l a).Nodup := by
  obtain ⟨p, q, rfl⟩ := List.append_of_mem ha
  have hmid := List.nodup_middle.mp hn
  have hap : a ∉ p := fun h => (List.nodup_cons.mp hmid).1 (List.mem_append_left q h)
  have haq : a ∉ q := fun h => (List.nodup_cons.mp hmid).1 (List.mem_append_right p h)
  have hpq : (p ++ q).Nodup := (List.nodup_cons.mp hmid).2
  rcases List.eq_nil_or_concat' q with hq | ⟨q0, b, rfl⟩
  · subst hq
    rw [swapRemove_concat_self p a hap]
    refine ⟨by simp, fun x => ?_, by simpa using hpq⟩
    constructor
    · intro hx
      exact ⟨List.mem_append_left _ hx, fun hxa => hap (hxa ▸ hx)⟩
    · intro ⟨hx, hxa⟩
      rcases List.mem_append.mp hx with h | h
      · exact h
      · exact absurd (List.mem_singleton.mp h) hxa
  · rw [swapRemove_middle p q0 a b hap]
    have hb_ne : a ≠ b := by
      intro h; exact haq (h ▸ List.mem_append_right q0 (List.mem_singleton.mpr rfl))
    have haq0 : a ∉ q0 := fun h => haq (List.mem_append_left _ h)
    refine ⟨by simp; omega, fun x => ?_, ?_⟩
    · constructor
      · intro hx
        rcases List.mem_append.mp hx with h | h
        · exact ⟨List.mem_append_left _ h, fun hxa => hap (hxa ▸ h)⟩
        · rcases List.mem_cons.mp h with h | h
          · subst h
            exact ⟨List.mem_append_right p (List.mem_cons_of_mem a
              (List.mem_append_right q0 (List.mem_singleton.mpr rfl))),
              fun hxa => hb_ne hxa.symm⟩
          · exact ⟨List.mem_append_right p (List.mem_cons_of_mem a (List.mem_append_left _ h)),
              fun hxa => haq0 (hxa ▸ h)⟩
      · intro ⟨hx, hxa⟩
        rcases List.mem_append.mp hx with h | h
        · exact List.mem_append_left _ h
        · rcases List.mem_cons.mp h with h | h
          · exact absurd h hxa
          · rcases List.mem_append.mp h with h | h
            · exact List.mem_append_right p (List.mem_cons_of_mem b h)
            · exact List.mem_append_right p
                (List.mem_singleton.mp h ▸ List.mem_cons_self b q0)
    · have h1 : ((p ++ q0) ++ [b]).Nodup := by
        have : p ++ (q0 ++ [b]) = (p ++ q0) ++ [b] := by simp
        rw [this] at hpq; exact hpq
    -- turn Nodup ((p ++ q0) ++ [b]) into Nodup (p ++ b :: q0)
      have h2 : (b :: (p ++ q0)).Nodup := by
        have := @List.nodup_middle Addr b (p ++ q0) []
        simp only [List.append_nil] at this
        exact this.mp (by simpa using h1)
      have := @List.nodup_middle Addr b p q0
      exact this.mpr (by simpa using h2)

/-! ## Claim C1: executeProposal characterization -/

/-- C1 (amended): for an existing proposal of a **non-paused** DAO,
`executeProposal` succeeds iff the deadline has passed, the proposal is not
yet executed, `yesVotes + noVotes >= memberCount * quorumPercentage / 100`
and `yesVotes > noVotes`; each violated precondition yields its own specific
revert reason (checked in source order), and a successful call marks the
proposal executed.  (The unamended claim, without the non-paused assumption,
is refuted by `dao_executeProposal_paused_counterexample`.) -/
theorem dao_executeProposal_characterization (s : DAOState) (pid now : Nat)
    (hpaused : s.paused = false) (hvalid : 1 ≤ pid ∧ pid ≤ s.proposalCount) :
    (isRevert (DAO.executeProposal s pid now) = false ↔
      ((alookup Proposal.zero s.proposals pid).deadline ≤ now
        ∧ (alookup Proposal.zero s.proposals pid).executed = false
        ∧ s.memberCount * s.quorumPercentage / 100 ≤
            (alookup Proposal.zero s.proposals pid).yesVotes
              + (alookup Proposal.zero s.proposals pid).noVotes
        ∧ (alookup Proposal.zero s.proposals pid).noVotes
            < (alookup Proposal.zero s.proposals pid).yesVotes))
    ∧ (now < (alookup Proposal.zero s.proposals pid).deadline →
        DAO.executeProposal s pid now = .error "Voting period not ended")
    ∧ ((alookup Proposal.zero s.proposals pid).deadline ≤ now →
        (alookup Proposal.zero s.proposals pid).executed = true →
        DAO.executeProposal s pid now = .error "Proposal already executed")
    ∧ ((alookup Proposal.zero s.proposals pid).deadline ≤ now →
        (alookup Proposal.zero s.proposals pid).executed = false →
        (alookup Proposal.zero s.proposals pid).yesVotes
            + (alookup Proposal.zero s.proposals pid).noVotes
          < s.memberCount * s.quorumPercentage / 100 →
        DAO.executeProposal s pid now = .error "Quorum not reached")
    ∧ ((alookup Proposal.zero s.proposals pid).deadline ≤ now →
        (alookup Proposal.zero s.proposals pid).executed = false →
        s.memberCount * s.quorumPercentage / 100 ≤
          (alookup Proposal.zero s.proposals pid).yesVotes
            + (alookup Proposal.zero s.proposals pid).noVotes →
        (alookup Proposal.zero s.proposals pid).yesVotes
            ≤ (alookup Proposal.zero s.proposals pid).noVotes →
        DAO.executeProposal s pid now = .error "Proposal rejected")
    ∧ ((alookup Proposal.zero s.proposals pid).deadline ≤ now →
        (alookup Proposal.zero s.proposals pid).executed = false →
        s.memberCount * s.quorumPercentage / 100 ≤
          (alookup Proposal.zero s.proposals pid).yesVotes
            + (alookup Proposal.zero s.proposals pid).noVotes →
        (alookup Proposal.zero s.proposals pid).noVotes
            < (alookup Proposal.zero s.proposals pid).yesVotes →
        DAO.executeProposal s pid now = .ok { s with
          proposals := aset s.proposals pid
            { alookup Proposal.zero s.proposals pid with executed := true } }
        ∧ (alookup Proposal.zero (aset s.proposals pid
            { alookup Proposal.zero s.proposals pid with executed := true })
              pid).executed = true) := by
  have key : DAO.executeProposal s pid now =
      (if now < (alookup Proposal.zero s.proposals pid).deadline then
        .error "Voting period not ended"
      else if (alookup Proposal.zero s.proposals pid).executed then
        .error "Proposal already executed"
      else if (alookup Proposal.zero s.proposals pid).yesVotes
          + (alookup Proposal.zero s.proposals pid).noVotes
          < s.memberCount * s.quorumPercentage / 100 then
        .error "Quorum not reached"
      else if ¬ (alookup Proposal.zero s.proposals pid).noVotes
          < (alookup Proposal.zero s.proposals pid).yesVotes then
        .error "Proposal rejected"
      else .ok { s with
        proposals := aset s.proposals pid
          { alookup Proposal.zero s.proposals pid with executed := true } }) := by
    rw [DAO.executeProposal, if_neg (by simp [hpaused]), if_neg (not_not_intro hvalid)]
  refine ⟨?_, ?_, ?_, ?_, ?_, ?_⟩
  · rw [key]
    split_ifs with h1 h2 h3 h4
    · simp only [isRevert, Bool.true_eq_false, false_iff]
      rintro ⟨hc, -, -, -⟩; omega
    · simp only [isRevert, Bool.true_eq_false, false_iff]
      rintro ⟨-, hc, -, -⟩; rw [h2] at hc; cases hc
    · simp only [isRevert, Bool.true_eq_false, false_iff]
      rintro ⟨-, -, hc, -⟩; omega
    · have he : (alookup Proposal.zero s.proposals pid).executed = false := by
        simpa using h2
      simp only [isRevert]
      exact ⟨fun _ => ⟨not_lt.mp h1, he, not_lt.mp h3, h4⟩, fun _ => trivial⟩
    · simp only [isRevert, Bool.true_eq_false, false_iff]
      rintro ⟨-, -, -, hc⟩; exact h4 hc
  · intro hd; rw [key, if_pos hd]
  · intro hd he; rw [key, if_neg (not_lt.mpr hd), if_pos he]
  · intro hd he hq
    rw [key, if_neg (not_lt.mpr hd), if_neg (by simp [he]), if_pos hq]
  · intro hd he hq hy
    rw [key, if_neg (not_lt.mpr hd), if_neg (by simp [he]), if_neg (not_lt.mpr hq),
      if_pos (not_lt.mpr hy)]
  · intro hd he hq hy
    rw [key, if_neg (not_lt.mpr hd), if_neg (by simp [he]), if_neg (not_lt.mpr hq),
      if_neg (not_not_intro hy)]
    exact ⟨rfl, by rw [alookup_aset_self]⟩

/-- A proposal that, at time 10, meets all four execution conditions. -/
def c1Proposal : Proposal :=
  { id := 1, title := "t", description := "dd", yesVotes := 1, noVotes := 0,
    deadline := 5, executed := false, proposer := 1, hasVoted := [1] }

/-- A paused DAO holding `c1Proposal` as proposal 1. -/
def c1State : DAOState :=
  { name := "d", owner := 1, paused := true, members := [1], memberList := [1],
    proposalCount := 1, memberCount := 1, attachedVault := 0, quorumPercentage := 51,
    proposals := [(1, c1Proposal)] }

/-- C1 counterexample: at time 10, proposal 1 of `c1State` meets all four of
the claim's conditions (deadline passed, not executed, quorum met, strict
majority), yet `executeProposal` fails because the DAO is paused, refuting
the claimed if-and-only-if. -/
theorem dao_executeProposal_paused_counterexample :
    (alookup Proposal.zero c1State.proposals 1).deadline ≤ 10
    ∧ (alookup Proposal.zero c1State.proposals 1).executed = false
    ∧ c1State.memberCount * c1State.quorumPercentage / 100 ≤
        (alookup Proposal.zero c1State.proposals 1).yesVotes
          + (alookup Proposal.zero c1State.proposals 1).noVotes
    ∧ (alookup Proposal.zero c1State.proposals 1).noVotes
        < (alookup Proposal.zero c1State.proposals 1).yesVotes
    ∧ DAO.executeProposal c1State 1 10 = .error "Pausable: paused" := by
  refine ⟨by decide, by decide, by decide, by decide, rfl⟩

/-- An unpaused copy of `c1State`. -/
def c1StateUnpaused : DAOState := { c1State with paused := false }

/-- Witness for `dao_executeProposal_characterization` at a concrete input. -/
theorem dao_executeProposal_characterization_witness :
    isRevert (DAO.executeProposal c1StateUnpaused 1 10) = false ↔
      ((alookup Proposal.zero c1StateUnpaused.proposals 1).deadline ≤ 10
        ∧ (alookup Proposal.zero c1StateUnpaused.proposals 1).executed = false
        ∧ c1StateUnpaused.memberCount * c1StateUnpaused.quorumPercentage / 100 ≤
            (alookup Proposal.zero c1StateUnpaused.proposals 1).yesVotes
              + (alookup Proposal.zero c1StateUnpaused.proposals 1).noVotes
        ∧ (alookup Proposal.zero c1StateUnpaused.proposals 1).noVotes
            < (alookup Proposal.zero c1StateUnpaused.proposals 1).yesVotes) :=
  (dao_executeProposal_characterization c1StateUnpaused 1 10 rfl (by decide)).1

/-! ## Claim C6: update setters -/

/-- A vault owned by address 1 with one signer. -/
def c6State : VaultState :=
  { owner := 1, paused := false, daoAddress := 9, withdrawalLimit := 10 ^ 18,
    requiredSignatures := 1, spendingProposalCount := 0, authorizedSigners := [1],
    signerList := [1], spendingProposals := [], tokenBalances := [], supportedTokens := [] }

/-- C6 counterexample: the owner sets the withdrawal limit to 0 — far below
the claimed lower bound of 0.01 ether — and the call succeeds and stores the
out-of-bounds value: `updateWithdrawalLimit` has no bounds check at all. -/
theorem vault_updateWithdrawalLimit_unbounded_counterexample :
    Vault.updateWithdrawalLimit c6State 1 0 = .ok { c6State with withdrawalLimit := 0 }
    ∧ 0 < VaultFactory.MIN_WITHDRAWAL_LIMIT :=
  ⟨rfl, by decide⟩

/-- C6 (amended): both setters are owner-only; `updateRequiredSignatures` is
bounds-checked into [1, signer count] and a successful call lands in those
bounds; but `updateWithdrawalLimit` performs no bounds check — the owner can
store any value, including values outside [0.01 ether, 1000 ether]. -/
theorem vault_update_parameter_bounds (s : VaultState) (sender : Addr) (n : Nat) :
    (sender ≠ s.owner → isRevert (Vault.updateWithdrawalLimit s sender n) = true
      ∧ isRevert (Vault.updateRequiredSignatures s sender n) = true)
    ∧ (sender = s.owner →
        Vault.updateWithdrawalLimit s sender n = .ok { s with withdrawalLimit := n })
    ∧ (∀ s1, Vault.updateRequiredSignatures s sender n = .ok s1 →
        sender = s.owner ∧ s1.requiredSignatures = n ∧ 1 ≤ s1.requiredSignatures
        ∧ s1.requiredSignatures ≤ s1.signerList.length)
    ∧ (sender = s.owner → 1 ≤ n → n ≤ s.signerList.length →
        Vault.updateRequiredSignatures s sender n = .ok { s with requiredSignatures := n }) := by
  refine ⟨fun hno => ⟨?_, ?_⟩, fun hyes => ?_, fun s1 h => ?_, fun hyes h1 h2 => ?_⟩
  · rw [Vault.updateWithdrawalLimit, if_pos hno]; rfl
  · rw [Vault.updateRequiredSignatures, if_pos hno]; rfl
  · rw [Vault.updateWithdrawalLimit, if_neg (not_not_intro hyes)]
  · rw [Vault.updateRequiredSignatures] at h
    split_ifs at h with ha hb hc
    obtain rfl := Except.ok.inj h
    have hown : sender = s.owner := not_not.mp ha
    exact ⟨hown, rfl, hb, hc⟩
  · rw [Vault.updateRequiredSignatures, if_neg (not_not_intro hyes),
      if_neg (not_not_intro (show Vault.MIN_SIGNATURES ≤ n from h1)),
      if_neg (not_not_intro h2)]

/-- Witness for `vault_update_parameter_bounds` at concrete inputs. -/
theorem vault_update_parameter_bounds_witness :
    Vault.updateWithdrawalLimit c6State 1 5 = .ok { c6State with withdrawalLimit := 5 }
    ∧ Vault.updateRequiredSignatures c6State 1 1 =
        .ok { c6State with requiredSignatures := 1 } :=
  ⟨(vault_update_parameter_bounds c6State 1 5).2.1 rfl,
   (vault_update_parameter_bounds c6State 1 1).2.2.2 rfl (by decide) (by decide)⟩

/-! ## Claim C7: removeSigner threshold -/

/-- A vault with 3 signers and a 2-signature requirement. -/
def c7State : VaultState :=
  { owner := 1, paused := false, daoAddress := 9, withdrawalLimit := 10,
    requiredSignatures := 2, spendingProposalCount := 0, authorizedSigners := [1, 2, 3],
    signerList := [1, 2, 3], spendingProposals := [], tokenBalances := [],
    supportedTokens := [] }

/-- C7 counterexample: with 3 signers and `requiredSignatures = 2`, removing
signer 3 drops the signer count to exactly `requiredSignatures` — the claim
says such a removal must fail, but the call succeeds (the source only
requires `signerList.length > requiredSignatures` before removal). -/
theorem vault_removeSigner_at_threshold_counterexample :
    c7State.signerList.length = 3 ∧ c7State.requiredSignatures = 2
    ∧ Vault.removeSigner c7State 1 3 =
        .ok { c7State with authorizedSigners := [1, 2], signerList := [1, 2] } := by
  refine ⟨rfl, rfl, ?_⟩
  rfl

/-- C7 (amended): `removeSigner` fails whenever the current signer count is at
or below `requiredSignatures` — equivalently, whenever removal would drop the
count strictly below `requiredSignatures`; a successful removal requires the
prior count to strictly exceed `requiredSignatures` and therefore leaves the
count still at or above `requiredSignatures`. -/
theorem vault_removeSigner_threshold (s : VaultState) (sender signer : Addr)
    (hnodup : s.signerList.Nodup) (hmem : signer ∈ s.signerList) :
    (s.signerList.length ≤ s.requiredSignatures →
      isRevert (Vault.removeSigner s sender signer) = true)
    ∧ (∀ s1, Vault.removeSigner s sender signer = .ok s1 →
        s.requiredSignatures < s.signerList.length
        ∧ s1.signerList.length + 1 = s.signerList.length
        ∧ s1.requiredSignatures ≤ s1.signerList.length) := by
  constructor
  · intro hle
    rw [Vault.removeSigner]
    split_ifs with h1 h2 h3 h4 h5
    all_goals first
      | rfl
      | exact absurd h5 (by omega)
  · intro s1 h
    rw [Vault.removeSigner] at h
    split_ifs at h with h1 h2 h3 h4 h5
    obtain rfl := Except.ok.inj h
    have hs := swapRemove_spec s.signerList signer hnodup hmem
    refine ⟨h5, hs.1, ?_⟩
    have := hs.1
    simp only []
    omega

/-- The state after removing signer 3 from `c7State`. -/
def c7Removed : VaultState :=
  { c7State with authorizedSigners := [1, 2], signerList := [1, 2] }

/-- Witness for `vault_removeSigner_threshold` at a concrete input. -/
theorem vault_removeSigner_threshold_witness :
    c7State.requiredSignatures < c7State.signerList.length
    ∧ c7Removed.signerList.length + 1 = c7State.signerList.length :=
  ⟨((vault_removeSigner_threshold c7State 1 3 (by decide) (by decide)).2 c7Removed rfl).1,
   ((vault_removeSigner_threshold c7State 1 3 (by decide) (by decide)).2 c7Removed rfl).2.1⟩

/-! ## Claim C8: paused vault -/

/-- A paused vault with no ETH balance. -/
def c8State : VaultState :=
  { owner := 1, paused := true, daoAddress := 9, withdrawalLimit := 10,
    requiredSignatures := 1, spendingProposalCount := 0, authorizedSigners := [1],
    signerList := [1], spendingProposals := [], tokenBalances := [],
    supportedTokens := [] }

/-- C8 counterexample: while the vault is paused, the plain `receive()`
fallback still credits incoming native currency — the tracked ETH balance
grows from 0 to 5 in the paused state, refuting the claim that no operation
in the paused state increases any tracked balance. -/
theorem vault_receive_while_paused_counterexample :
    c8State.paused = true
    ∧ alookup 0 c8State.tokenBalances 0 = 0
    ∧ alookup 0 (Vault.receiveETH c8State 5).tokenBalances 0 = 5 :=
  ⟨rfl, rfl, rfl⟩

/-- C8 (amended): while a vault is paused, `depositETH`, `depositToken`,
`withdraw`, `createSpendingProposal`, `approveSpendingProposal` and
`executeSpendingProposal` all revert (so none of them changes state); however
the `receive()` fallback has no pause guard and still increases the tracked
native-asset balance. -/
theorem vault_paused_blocks_operations (s : VaultState) (hp : s.paused = true) :
    (∀ v, isRevert (Vault.depositETH s v) = true)
    ∧ (∀ sender token amount ok, isRevert (Vault.depositToken s sender token amount ok) = true)
    ∧ (∀ sender token amount recipient ok,
        isRevert (Vault.withdraw s sender token amount recipient ok) = true)
    ∧ (∀ sender token amount recipient descr now,
        isRevert (Vault.createSpendingProposal s sender token amount recipient descr now) = true)
    ∧ (∀ sender pid now ok, isRevert (Vault.approveSpendingProposal s sender pid now ok) = true)
    ∧ (∀ pid ok, isRevert (Vault.executeSpendingProposal s pid ok) = true)
    ∧ (∀ v, 0 < v →
        alookup 0 (Vault.receiveETH s v).tokenBalances 0 = alookup 0 s.tokenBalances 0 + v) := by
  refine ⟨fun v => ?_, fun a b c d => ?_, fun a b c d e => ?_, fun a b c d e f => ?_,
    fun a b c d => ?_, fun a b => ?_, fun v hv => ?_⟩
  · rw [Vault.depositETH, if_pos hp]; rfl
  · rw [Vault.depositToken, if_pos hp]; rfl
  · rw [Vault.withdraw]
    by_cases hs : a ≠ s.daoAddress
    · rw [if_pos hs]; rfl
    · rw [if_neg hs, if_pos hp]; rfl
  · rw [Vault.createSpendingProposal]
    by_cases hs : Vault.isAuthorized s a
    · rw [if_neg (not_not_intro hs), if_pos hp]; rfl
    · rw [if_pos hs]; rfl
  · rw [Vault.approveSpendingProposal]
    by_cases hs : Vault.isAuthorized s a
    · rw [if_neg (not_not_intro hs), if_pos hp]; rfl
    · rw [if_pos hs]; rfl
  · rw [Vault.executeSpendingProposal, if_pos hp]; rfl
  · rw [Vault.receiveETH, if_pos hv, alookup_aset_self]

/-- Witness for `vault_paused_blocks_operations` at concrete inputs. -/
theorem vault_paused_blocks_operations_witness :
    isRevert (Vault.depositETH c8State 5) = true
    ∧ isRevert (Vault.withdraw c8State 9 0 1 2 true) = true
    ∧ alookup 0 (Vault.receiveETH c8State 5).tokenBalances 0
        = alookup 0 c8State.tokenBalances 0 + 5 :=
  ⟨(vault_paused_blocks_operations c8State rfl).1 5,
   (vault_paused_blocks_operations c8State rfl).2.2.1 9 0 1 2 true,
   (vault_paused_blocks_operations c8State rfl).2.2.2.2.2.2 5 (by decide)⟩

/-! ## Spending-proposal execution lemmas (used by claims C2 and C5) -/

/-- Soft-failure path of `_executeSpendingProposal`: when the transfer fails
the call still returns successfully, every tracked balance is restored, and
the stored proposal is the pre-state proposal with `executed := false`. -/
theorem execInternal_ok_fail (s : VaultState) (pid : Nat) (s1 : VaultState)
    (h : Vault.executeSpendingProposalInternal s pid false = .ok s1) :
    (∀ t, alookup 0 s1.tokenBalances t = alookup 0 s.tokenBalances t)
    ∧ alookup SpendingProposal.zero s1.spendingProposals pid =
        { alookup SpendingProposal.zero s.spendingProposals pid with executed := false } := by
  rw [Vault.executeSpendingProposalInternal] at h
  split_ifs at h with hb hok
  · exact hok.elim
  obtain rfl := Except.ok.inj h
  constructor
  · intro t
    dsimp only
    by_cases ht : t = (alookup SpendingProposal.zero s.spendingProposals pid).token
    · subst ht
      rw [alookup_aset_self, alookup_aset_self,
        Nat.sub_add_cancel (le_of_not_lt hb)]
    · rw [alookup_aset_ne _ _ _ _ _ ht, alookup_aset_ne _ _ _ _ _ ht]
  · dsimp only
    rw [alookup_aset_self, alookup_aset_self]

/-- Success path of `_executeSpendingProposal`: when the transfer succeeds
the stored proposal is marked executed and the balance of the proposal's
token decreases by its amount. -/
theorem execInternal_ok_success (s : VaultState) (pid : Nat) (s1 : VaultState)
    (h : Vault.executeSpendingProposalInternal s pid true = .ok s1) :
    alookup SpendingProposal.zero s1.spendingProposals pid =
      { alookup SpendingProposal.zero s.spendingProposals pid with executed := true }
    ∧ alookup 0 s1.tokenBalances (alookup SpendingProposal.zero s.spendingProposals pid).token
        + (alookup SpendingProposal.zero s.spendingProposals pid).amount
      = alookup 0 s.tokenBalances (alookup SpendingProposal.zero s.spendingProposals pid).token := by
  rw [Vault.executeSpendingProposalInternal] at h
  split_ifs at h with hb hok
  case neg => exact absurd rfl hok
  obtain rfl := Except.ok.inj h
  constructor
  · dsimp only
    rw [alookup_aset_self]
  · dsimp only
    rw [alookup_aset_self, Nat.sub_add_cancel (le_of_not_lt hb)]

/-! ## Claim C2: the two external-transfer-failure policies -/

/-- C2: `withdraw` treats a failing outgoing transfer as fatal — the whole
call reverts, so no state change persists; the spending-proposal execution
paths (`executeSpendingProposal` and the auto-execute inside
`approveSpendingProposal`) treat it as a soft failure: the call completes,
every tracked balance is restored, the proposal is left un-executed (for the
approve path, with its approvals kept, so a retry needs no new approvals),
and under the stated preconditions the执行 call indeed completes. -/
theorem vault_transfer_failure_policies :
    (∀ s sender token amount recipient,
      isRevert (Vault.withdraw s sender token amount recipient false) = true)
    ∧ (∀ s pid s1, Vault.executeSpendingProposal s pid false = .ok s1 →
        (∀ t, alookup 0 s1.tokenBalances t = alookup 0 s.tokenBalances t)
        ∧ alookup SpendingProposal.zero s1.spendingProposals pid
            = alookup SpendingProposal.zero s.spendingProposals pid)
    ∧ (∀ s sender pid now s1,
        Vault.approveSpendingProposal s sender pid now false = .ok s1 →
        (∀ t, alookup 0 s1.tokenBalances t = alookup 0 s.tokenBalances t)
        ∧ (alookup SpendingProposal.zero s1.spendingProposals pid).executed = false
        ∧ (alookup SpendingProposal.zero s1.spendingProposals pid).approvals
            = (alookup SpendingProposal.zero s.spendingProposals pid).approvals + 1)
    ∧ (∀ s pid, s.paused = false → 1 ≤ pid → pid ≤ s.spendingProposalCount →
        s.requiredSignatures ≤ (alookup SpendingProposal.zero s.spendingProposals pid).approvals →
        (alookup SpendingProposal.zero s.spendingProposals pid).executed = false →
        (alookup SpendingProposal.zero s.spendingProposals pid).amount
          ≤ alookup 0 s.tokenBalances (alookup SpendingProposal.zero s.spendingProposals pid).token →
        isRevert (Vault.executeSpendingProposal s pid false) = false) := by
  refine ⟨?_, ?_, ?_, ?_⟩
  · intro s sender token amount recipient
    rw [Vault.withdraw]
    split_ifs <;> first | rfl | simp_all
  · intro s pid s1 h
    rw [Vault.executeSpendingProposal] at h
    dsimp only at h
    split_ifs at h with h1 h2 h3 h4 h5
    have hx := execInternal_ok_fail s pid s1 h
    refine ⟨hx.1, ?_⟩
    rw [hx.2]
    have he : (alookup SpendingProposal.zero s.spendingProposals pid).executed = false := by
      simpa using h4
    rw [← he]
  · intro s sender pid now s1 h
    rw [Vault.approveSpendingProposal] at h
    dsimp only at h
    split_ifs at h with h1 h2 h3 h4 h5 h6 h7
    · -- threshold reached: the auto-execute ran with a failing transfer
      have hx := execInternal_ok_fail _ pid s1 h
      have he : (alookup SpendingProposal.zero s.spendingProposals pid).executed = false := by
        simpa using h5
      refine ⟨fun t => by rw [hx.1 t], ?_, ?_⟩
      · rw [hx.2]
      · rw [hx.2]
        dsimp only
        rw [alookup_aset_self]
    · -- threshold not reached: only the approval was recorded
      obtain rfl := Except.ok.inj h
      have he : (alookup SpendingProposal.zero s.spendingProposals pid).executed = false := by
        simpa using h5
      refine ⟨fun t => rfl, ?_, ?_⟩
      · dsimp only
        rw [alookup_aset_self]
        exact he
      · dsimp only
        rw [alookup_aset_self]
  · intro s pid hp hp1 hp2 hreq hexec hbal
    have hint : isRevert (Vault.executeSpendingProposalInternal s pid false) = false := by
      rw [Vault.executeSpendingProposalInternal]
      dsimp only
      rw [if_neg (not_lt.mpr hbal), if_neg Bool.false_ne_true]
      rfl
    rw [Vault.executeSpendingProposal]
    dsimp only
    rw [if_neg (by simp [hp]), if_neg (not_not_intro ⟨hp1, hp2⟩), if_neg (not_lt.mpr hreq),
      if_neg (by simp [hexec]), if_neg (not_lt.mpr hbal)]
    exact hint

/-- A pending spending proposal with one prior approval. -/
def c2Prop : SpendingProposal :=
  { id := 1, token := 0, amount := 50, recipient := 2, description := "x",
    approvals := 1, deadline := 1000, executed := false, hasApproved := [1] }

/-- A vault whose proposal 1 already has enough approvals to execute. -/
def c2State : VaultState :=
  { owner := 1, paused := false, daoAddress := 9, withdrawalLimit := 10,
    requiredSignatures := 1, spendingProposalCount := 1, authorizedSigners := [1],
    signerList := [1], spendingProposals := [(1, c2Prop)],
    tokenBalances := [(5, 7), (0, 100)], supportedTokens := [5] }

/-- The post-state of executing proposal 1 of `c2State` with a failing
transfer: balances restored, proposal left un-executed. -/
def c2After : VaultState :=
  { c2State with spendingProposals := [(1, c2Prop)], tokenBalances := [(0, 100), (5, 7)] }

/-- Witness for `vault_transfer_failure_policies` at concrete inputs. -/
theorem vault_transfer_failure_policies_witness :
    isRevert (Vault.withdraw c2State 9 0 5 2 false) = true
    ∧ alookup 0 c2After.tokenBalances 0 = alookup 0 c2State.tokenBalances 0
    ∧ alookup SpendingProposal.zero c2After.spendingProposals 1
        = alookup SpendingProposal.zero c2State.spendingProposals 1
    ∧ isRevert (Vault.executeSpendingProposal c2State 1 false) = false :=
  ⟨vault_transfer_failure_policies.1 c2State 9 0 5 2,
   (vault_transfer_failure_policies.2.1 c2State 1 c2After rfl).1 0,
   (vault_transfer_failure_policies.2.1 c2State 1 c2After rfl).2,
   vault_transfer_failure_policies.2.2.2 c2State 1 rfl (by decide) (by decide) (by decide)
     (by decide) (by decide)⟩

/-! ## Claim C5: auto-execution at the threshold and no double spend -/

/-- C5: a successful `approveSpendingProposal` that lifts the approval count
to `requiredSignatures` executes the proposal within the same call when the
transfer succeeds (executed flag set, balance decremented by the amount); and
once a proposal is executed, every further `approveSpendingProposal` or
`executeSpendingProposal` call on it reverts. -/
theorem vault_auto_execute_no_double_spend :
    (∀ s sender pid now s1,
        Vault.approveSpendingProposal s sender pid now true = .ok s1 →
        s.requiredSignatures ≤
          (alookup SpendingProposal.zero s.spendingProposals pid).approvals + 1 →
        (alookup SpendingProposal.zero s1.spendingProposals pid).executed = true
        ∧ alookup 0 s1.tokenBalances
              (alookup SpendingProposal.zero s.spendingProposals pid).token
            + (alookup SpendingProposal.zero s.spendingProposals pid).amount
          = alookup 0 s.tokenBalances
              (alookup SpendingProposal.zero s.spendingProposals pid).token)
    ∧ (∀ s sender pid now ok,
        (alookup SpendingProposal.zero s.spendingProposals pid).executed = true →
        isRevert (Vault.approveSpendingProposal s sender pid now ok) = true
        ∧ isRevert (Vault.executeSpendingProposal s pid ok) = true) := by
  constructor
  · intro s sender pid now s1 h hth
    rw [Vault.approveSpendingProposal] at h
    dsimp only at h
    split_ifs at h with h1 h2 h3 h4 h5 h6
    have hx := execInternal_ok_success _ pid s1 h
    constructor
    · rw [hx.1]
    · have hb := hx.2
      rw [alookup_aset_self] at hb
      exact hb
  · intro s sender pid now ok hexec
    constructor
    · rw [Vault.approveSpendingProposal]
      dsimp only
      split_ifs with a1 a2 a3 a4 <;> rfl
    · rw [Vault.executeSpendingProposal]
      dsimp only
      split_ifs with b1 b2 b3 <;> rfl

/-- A spending proposal one approval short of its 1-signature threshold. -/
def c5Prop : SpendingProposal :=
  { id := 1, token := 0, amount := 50, recipient := 2, description := "x",
    approvals := 0, deadline := 1000, executed := false, hasApproved := [] }

/-- A vault holding `c5Prop` as proposal 1, threshold 1, ETH balance 100. -/
def c5State : VaultState :=
  { owner := 1, paused := false, daoAddress := 9, withdrawalLimit := 10,
    requiredSignatures := 1, spendingProposalCount := 1, authorizedSigners := [1],
    signerList := [1], spendingProposals := [(1, c5Prop)], tokenBalances := [(0, 100)],
    supportedTokens := [] }

/-- Proposal 1 of `c5State` after signer 1 approves and auto-execution runs. -/
def c5PropApproved : SpendingProposal :=
  { id := 1, token := 0, amount := 50, recipient := 2, description := "x",
    approvals := 1, deadline := 1000, executed := true, hasApproved := [1] }

/-- `c5State` after the approval by signer 1 auto-executes proposal 1. -/
def c5After : VaultState :=
  { c5State with spendingProposals := [(1, c5PropApproved)], tokenBalances := [(0, 50)] }

/-- Witness for `vault_auto_execute_no_double_spend` at concrete inputs. -/
theorem vault_auto_execute_no_double_spend_witness :
    ((alookup SpendingProposal.zero c5After.spendingProposals 1).executed = true
      ∧ alookup 0 c5After.tokenBalances
            (alookup SpendingProposal.zero c5State.spendingProposals 1).token
          + (alookup SpendingProposal.zero c5State.spendingProposals 1).amount
        = alookup 0 c5State.tokenBalances
            (alookup SpendingProposal.zero c5State.spendingProposals 1).token)
    ∧ isRevert (Vault.approveSpendingProposal c5After 1 1 5 true) = true
    ∧ isRevert (Vault.executeSpendingProposal c5After 1 true) = true :=
  ⟨vault_auto_execute_no_double_spend.1 c5State 1 1 5 c5After rfl (by decide),
   (vault_auto_execute_no_double_spend.2 c5After 1 1 5 true rfl).1,
   (vault_auto_execute_no_double_spend.2 c5After 1 1 5 true rfl).2⟩

/-! ## Claim C9: initial signer of a factory-created vault -/

/-- A vault produced by `_createVault` carries exactly the factory's own
address as signer (the vault constructor ran with `msg.sender` = factory),
and the calling user as owner. -/
theorem createVaultInternal_signers (f : VaultFactoryState) (sender daoAddress : Addr)
    (w r : Nat) (va : Addr) (f1 : VaultFactoryState) (v : VaultState)
    (h : VaultFactory.createVaultInternal f sender daoAddress w r va = .ok (f1, v)) :
    v.signerList = [f.selfAddr] ∧ v.authorizedSigners = [f.selfAddr] ∧ v.owner = sender := by
  rw [VaultFactory.createVaultInternal] at h
  split_ifs at h with h1 h2 h3 h4
  rw [Vault.construct, if_neg h1,
    if_neg (not_not_intro (show Vault.MIN_SIGNATURES ≤ r from h3.1))] at h
  dsimp only at h
  rw [Vault.transferOwnership] at h
  dsimp only at h
  rw [if_neg (fun hh => hh rfl)] at h
  split_ifs at h with h5
  obtain hfv := Except.ok.inj h
  obtain ⟨rfl, rfl⟩ := Prod.ext_iff.mp hfv
  exact ⟨rfl, rfl, rfl⟩

/-- C9: immediately after any factory creation path (`createVault`,
`createVaultWithCustomParams`, `createDefaultVault`), the new vault's
authorized-signer list is exactly `[factory address]`; the creating caller
becomes the vault's owner but is not an authorized signer. -/
theorem vaultfactory_initial_signer_is_factory (f : VaultFactoryState)
    (sender daoAddress : Addr) (w r : Nat) (va : Addr) (hne : sender ≠ f.selfAddr) :
    (∀ f1 v, VaultFactory.createVault f sender daoAddress w va = .ok (f1, v) →
      v.signerList = [f.selfAddr] ∧ v.authorizedSigners = [f.selfAddr]
      ∧ v.owner = sender ∧ sender ∉ v.authorizedSigners)
    ∧ (∀ f1 v,
        VaultFactory.createVaultWithCustomParams f sender daoAddress w r va = .ok (f1, v) →
      v.signerList = [f.selfAddr] ∧ v.authorizedSigners = [f.selfAddr]
      ∧ v.owner = sender ∧ sender ∉ v.authorizedSigners)
    ∧ (∀ f1 v, VaultFactory.createDefaultVault f sender daoAddress va = .ok (f1, v) →
      v.signerList = [f.selfAddr] ∧ v.authorizedSigners = [f.selfAddr]
      ∧ v.owner = sender ∧ sender ∉ v.authorizedSigners) := by
  have main : ∀ w1 r1 f1 v,
      VaultFactory.createVaultInternal f sender daoAddress w1 r1 va = .ok (f1, v) →
      v.signerList = [f.selfAddr] ∧ v.authorizedSigners = [f.selfAddr]
      ∧ v.owner = sender ∧ sender ∉ v.authorizedSigners := by
    intro w1 r1 f1 v h
    obtain ⟨hs, ha, ho⟩ := createVaultInternal_signers f sender daoAddress w1 r1 va f1 v h
    refine ⟨hs, ha, ho, ?_⟩
    rw [ha]
    simp [hne]
  exact ⟨fun f1 v h => main w f.defaultRequiredSignatures f1 v h,
    fun f1 v h => main w r f1 v h,
    fun f1 v h => main f.defaultWithdrawalLimit f.defaultRequiredSignatures f1 v h⟩

/-- A vault factory at address 100 with 1 default required signature. -/
def c9Factory : VaultFactoryState :=
  { selfAddr := 100, owner := 50, daoVaults := [], vaultToDAO := [], allVaults := [],
    vaultCount := 0, defaultWithdrawalLimit := 10 ^ 18, defaultRequiredSignatures := 1 }

/-- The vault `c9Factory.createVault` deploys for caller 7 and DAO 9. -/
def c9Vault : VaultState :=
  { owner := 7, paused := false, daoAddress := 9, withdrawalLimit := 10 ^ 18,
    requiredSignatures := 1, spendingProposalCount := 0, authorizedSigners := [100],
    signerList := [100], spendingProposals := [], tokenBalances := [],
    supportedTokens := [] }

/-- `c9Factory` after registering the new vault at address 200. -/
def c9FactoryAfter : VaultFactoryState :=
  { c9Factory with
    daoVaults := [(9, [200])], vaultToDAO := [(200, 9)], allVaults := [200],
    vaultCount := 1 }

/-- Witness for `vaultfactory_initial_signer_is_factory` at concrete inputs. -/
theorem vaultfactory_initial_signer_is_factory_witness :
    c9Vault.signerList = [c9Factory.selfAddr]
    ∧ c9Vault.authorizedSigners = [c9Factory.selfAddr]
    ∧ c9Vault.owner = 7 ∧ 7 ∉ c9Vault.authorizedSigners := by
  have h : VaultFactory.createVault c9Factory 7 9 (10 ^ 18) 200 =
      .ok (c9FactoryAfter, c9Vault) := rfl
  exact (vaultfactory_initial_signer_is_factory c9Factory 7 9 (10 ^ 18) 1 200
    (by decide)).1 c9FactoryAfter c9Vault h

/-! ## Claim C10: frame of emergencyRemoveDAO -/

/-- C10: a successful `emergencyRemoveDAO` never touches `userDAOs` — every
user's `getUserDAOs` list is unchanged and `createDAO` reverts afterwards
exactly when it reverted before (so a removed DAO still counts against the
10-per-user cap); the call only changes `allDAOs`, the `daoToVault` entry of
the removed DAO, the `vaultToDAO` entry of that DAO's vault, and `daoCount`,
which is decremented unconditionally (also when the address was never
created by the factory). -/
theorem daofactory_emergencyRemoveDAO_frame (s : DAOFactoryState) (sender dao : Addr)
    (s1 : DAOFactoryState) (h : DAOFactory.emergencyRemoveDAO s sender dao = .ok s1) :
    s1.userDAOs = s.userDAOs
    ∧ (∀ u, DAOFactory.getUserDAOs s1 u = DAOFactory.getUserDAOs s u)
    ∧ (∀ u nm a, isRevert (DAOFactory.createDAO s1 u nm a)
        = isRevert (DAOFactory.createDAO s u nm a))
    ∧ s1.daoCount + 1 = s.daoCount
    ∧ s1.owner = s.owner ∧ s1.paused = s.paused
    ∧ (∀ k, k ≠ dao → alookup 0 s1.daoToVault k = alookup 0 s.daoToVault k)
    ∧ (∀ k, k ≠ alookup 0 s.daoToVault dao →
        alookup 0 s1.vaultToDAO k = alookup 0 s.vaultToDAO k) := by
  rw [DAOFactory.emergencyRemoveDAO] at h
  dsimp only at h
  split_ifs at h with h1 h2 h3 hv <;>
    (obtain rfl := Except.ok.inj h;
     refine ⟨rfl, fun u => rfl, fun u nm a => ?_, by dsimp only; omega, rfl, rfl,
       fun k hk => ?_, fun k hk => ?_⟩)
  · rw [DAOFactory.createDAO, DAOFactory.createDAO]
    dsimp only
    split_ifs <;> first | rfl | (cases DAO.construct nm u <;> rfl)
  · exact alookup_adel_ne 0 s.daoToVault dao k hk
  · exact alookup_adel_ne 0 s.vaultToDAO (alookup 0 s.daoToVault dao) k hk
  · rw [DAOFactory.createDAO, DAOFactory.createDAO]
    dsimp only
    split_ifs <;> first | rfl | (cases DAO.construct nm u <;> rfl)
  · rfl
  · rfl

/-- A factory that has a registered DAO 7 (with vault 300) created by user 4. -/
def c10State : DAOFactoryState :=
  { owner := 1, paused := false, userDAOs := [(4, [7])], daoToVault := [(7, 300)],
    vaultToDAO := [(300, 7)], allDAOs := [7], daoCount := 1 }

/-- `c10State` after emergency-removing address 9 (never created by the
factory): only `daoCount` changes. -/
def c10After : DAOFactoryState := { c10State with daoCount := 0 }

/-- Witness for `daofactory_emergencyRemoveDAO_frame`: removing address 9,
which the factory never created, still succeeds, leaves every user's DAO
list unchanged, and decrements `daoCount`. -/
theorem daofactory_emergencyRemoveDAO_frame_witness :
    c10After.userDAOs = c10State.userDAOs
    ∧ DAOFactory.getUserDAOs c10After 4 = DAOFactory.getUserDAOs c10State 4
    ∧ c10After.daoCount + 1 = c10State.daoCount :=
  ⟨(daofactory_emergencyRemoveDAO_frame c10State 1 9 c10After rfl).1,
   (daofactory_emergencyRemoveDAO_frame c10State 1 9 c10After rfl).2.1 4,
   (daofactory_emergencyRemoveDAO_frame c10State 1 9 c10After rfl).2.2.2.1⟩

/-! ## Claim C4: DAO membership invariant -/

/-- The membership bookkeeping invariant of a `DAO`: the count matches the
array, the array is duplicate-free, the `members` mapping and the
`memberList` array agree, and the owner is a member. -/
def DAO.memberInvariant (s : DAOState) : Prop :=
  s.memberCount = s.memberList.length
  ∧ s.memberList.Nodup
  ∧ (∀ a, a ∈ s.members ↔ a ∈ s.memberList)
  ∧ s.owner ∈ s.members

/-- `addMember` preserves the membership invariant. -/
theorem addMember_invariant (s : DAOState) (sender m : Addr) (s1 : DAOState)
    (h : DAO.addMember s sender m = .ok s1) (hinv : DAO.memberInvariant s) :
    DAO.memberInvariant s1 := by
  rw [DAO.addMember] at h
  split_ifs at h with h1 h2 h3 h4 h5
  obtain rfl := Except.ok.inj h
  obtain ⟨hc, hnd, hagree, hown⟩ := hinv
  have hm : m ∉ s.memberList := fun hx => h4 ((hagree m).mpr hx)
  refine ⟨?_, ?_, ?_, ?_⟩
  · dsimp only
    rw [hc]
    simp
  · dsimp only
    rw [List.nodup_append]
    exact ⟨hnd, List.nodup_singleton m, by simpa [List.disjoint_singleton] using hm⟩
  · intro a
    dsimp only
    rw [List.mem_cons, List.mem_append, List.mem_singleton, hagree a]
    tauto
  · dsimp only
    exact List.mem_cons_of_mem m hown

/-- `removeMember` preserves the membership invariant. -/
theorem removeMember_invariant (s : DAOState) (sender m : Addr) (s1 : DAOState)
    (h : DAO.removeMember s sender m = .ok s1) (hinv : DAO.memberInvariant s) :
    DAO.memberInvariant s1 := by
  rw [DAO.removeMember] at h
  split_ifs at h with h1 h2 h3 h4 h5 h6
  obtain rfl := Except.ok.inj h
  obtain ⟨hc, hnd, hagree, hown⟩ := hinv
  have hml : m ∈ s.memberList := (hagree m).mp h4
  obtain ⟨hlen, hmm, hnd2⟩ := swapRemove_spec s.memberList m hnd hml
  refine ⟨?_, hnd2, ?_, ?_⟩
  · dsimp only
    omega
  · intro a
    dsimp only
    constructor
    · intro hx
      obtain ⟨hx1, hx2⟩ := List.mem_filter.mp hx
      exact (hmm a).mpr ⟨(hagree a).mp hx1, by simpa using hx2⟩
    · intro hx
      obtain ⟨hx1, hx2⟩ := (hmm a).mp hx
      exact List.mem_filter.mpr ⟨(hagree a).mpr hx1, by simpa using hx2⟩
  · dsimp only
    refine List.mem_filter.mpr ⟨hown, ?_⟩
    simpa using fun hh : s.owner = m => h5 hh.symm

/-- One membership call (failed calls keep the state) preserves the invariant. -/
theorem memberStep_invariant (s : DAOState) (op : MemberOp)
    (hinv : DAO.memberInvariant s) :
    DAO.memberInvariant (match DAO.memberStep s op with | .ok s1 => s1 | .error _ => s) := by
  cases op with
  | add sender m =>
    dsimp only [DAO.memberStep]
    cases hstep : DAO.addMember s sender m with
    | ok s1 => exact addMember_invariant s sender m s1 hstep hinv
    | error e => exact hinv
  | remove sender m =>
    dsimp only [DAO.memberStep]
    cases hstep : DAO.removeMember s sender m with
    | ok s1 => exact removeMember_invariant s sender m s1 hstep hinv
    | error e => exact hinv

/-- Any sequence of membership calls preserves the invariant. -/
theorem memberRun_invariant (s : DAOState) (ops : List MemberOp)
    (hinv : DAO.memberInvariant s) : DAO.memberInvariant (DAO.memberRun s ops) := by
  induction ops generalizing s with
  | nil => exact hinv
  | cons op ops ih =>
    rw [DAO.memberRun, List.foldl_cons]
    exact ih _ (memberStep_invariant s op hinv)

/-- C4: starting from a freshly constructed DAO, after any sequence of
`addMember`/`removeMember` calls, `memberCount` equals the size of the
(duplicate-free) member list, the `members` mapping and `memberList` agree,
and the owner is a member; moreover `removeMember` targeting the owner
always reverts, in every state. -/
theorem dao_member_invariant (nm : String) (ownerA : Addr) (s0 : DAOState)
    (h0 : DAO.construct nm ownerA = .ok s0) (ops : List MemberOp) :
    (DAO.memberRun s0 ops).memberCount = (DAO.memberRun s0 ops).memberList.length
    ∧ (DAO.memberRun s0 ops).memberList.Nodup
    ∧ (∀ a, a ∈ (DAO.memberRun s0 ops).members ↔ a ∈ (DAO.memberRun s0 ops).memberList)
    ∧ (DAO.memberRun s0 ops).owner ∈ (DAO.memberRun s0 ops).members
    ∧ (∀ (t : DAOState) (sender : Addr),
        isRevert (DAO.removeMember t sender t.owner) = true) := by
  have hbase : DAO.memberInvariant s0 := by
    rw [DAO.construct] at h0
    split_ifs at h0 with a1 a2
    obtain rfl := Except.ok.inj h0
    exact ⟨rfl, List.nodup_singleton _, fun a => Iff.rfl, List.mem_singleton.mpr rfl⟩
  obtain ⟨hc, hnd, hagree, hown⟩ := memberRun_invariant s0 ops hbase
  refine ⟨hc, hnd, hagree, hown, fun t sender => ?_⟩
  rw [DAO.removeMember]
  split_ifs <;> first | rfl | exact absurd rfl ‹_›

/-- The initial state of the witness DAO. -/
def c4s0 : DAOState :=
  { name := "d4", owner := 3, paused := false, members := [3], memberList := [3],
    proposalCount := 0, memberCount := 1, attachedVault := 0, quorumPercentage := 51,
    proposals := [] }

/-- The witness runs an add followed by a remove. -/
def c4Ops : List MemberOp := [MemberOp.add 3 5, MemberOp.remove 3 5]

/-- Witness for `dao_member_invariant` at a concrete input. -/
theorem dao_member_invariant_witness :
    (DAO.memberRun c4s0 c4Ops).memberCount = (DAO.memberRun c4s0 c4Ops).memberList.length
    ∧ isRevert (DAO.removeMember (DAO.memberRun c4s0 c4Ops) 3
        (DAO.memberRun c4s0 c4Ops).owner) = true := by
  have hc : DAO.construct "d4" 3 = .ok c4s0 := rfl
  have h := dao_member_invariant "d4" 3 c4s0 hc c4Ops
  exact ⟨h.1, h.2.2.2.2 (DAO.memberRun c4s0 c4Ops) 3⟩

/-! ## Claim C3: requiredSignatures vs signer count -/

/-- A vault factory (address 101) with 2 default required signatures. -/
def c3Factory : VaultFactoryState :=
  { selfAddr := 101, owner := 51, daoVaults := [], vaultToDAO := [], allVaults := [],
    vaultCount := 0, defaultWithdrawalLimit := 10 ^ 18, defaultRequiredSignatures := 2 }

/-- The vault `createVaultWithCustomParams` deploys for caller 8, DAO 9,
with `requiredSignatures = 2` — but only one signer. -/
def c3Vault : VaultState :=
  { owner := 8, paused := false, daoAddress := 9, withdrawalLimit := 10 ^ 18,
    requiredSignatures := 2, spendingProposalCount := 0, authorizedSigners := [101],
    signerList := [101], spendingProposals := [], tokenBalances := [],
    supportedTokens := [] }

/-- `c3Factory` after registering the vault at address 201. -/
def c3FactoryAfter : VaultFactoryState :=
  { c3Factory with
    daoVaults := [(9, [201])], vaultToDAO := [(201, 9)], allVaults := [201],
    vaultCount := 1 }

/-- C3 counterexample: a perfectly legal factory creation (requested
signature requirement 2, inside the factory's [1, 20] bounds) yields a vault
whose `requiredSignatures` (2) exceeds its signer count (1): the Vault
constructor checks only the lower bound, so the claimed upper-bound
invariant fails already in the initial state. -/
theorem vault_constructor_requiredSignatures_counterexample :
    VaultFactory.createVaultWithCustomParams c3Factory 8 9 (10 ^ 18) 2 201 =
      .ok (c3FactoryAfter, c3Vault)
    ∧ c3Vault.signerList.length < c3Vault.requiredSignatures := by
  have h : VaultFactory.createVaultWithCustomParams c3Factory 8 9 (10 ^ 18) 2 201 =
      .ok (c3FactoryAfter, c3Vault) := rfl
  exact ⟨h, by decide⟩

/-- `_executeSpendingProposal` never changes `requiredSignatures`. -/
theorem execInternal_req (s : VaultState) (pid : Nat) (ok : Bool) (s1 : VaultState)
    (h : Vault.executeSpendingProposalInternal s pid ok = .ok s1) :
    s1.requiredSignatures = s.requiredSignatures := by
  rw [Vault.executeSpendingProposalInternal] at h
  dsimp only at h
  split_ifs at h <;> (obtain rfl := Except.ok.inj h; rfl)

/-- No vault call except `updateRequiredSignatures` changes
`requiredSignatures`, and a successful `updateRequiredSignatures` lands in
[1, signer count]; so every successful step keeps `requiredSignatures ≥ 1`. -/
theorem vaultStep_req_lower (s : VaultState) (op : VaultOp) (s1 : VaultState)
    (h : vaultStep s op = .ok s1) (hs : 1 ≤ s.requiredSignatures) :
    1 ≤ s1.requiredSignatures := by
  cases op with
  | depositETH v =>
    simp only [vaultStep, Vault.depositETH] at h
    split_ifs at h
    all_goals obtain rfl := Except.ok.inj h
    all_goals exact hs
  | depositToken sender token amount ok =>
    simp only [vaultStep, Vault.depositToken] at h
    split_ifs at h
    all_goals obtain rfl := Except.ok.inj h
    all_goals exact hs
  | withdraw sender token amount recipient ok =>
    simp only [vaultStep, Vault.withdraw] at h
    split_ifs at h
    all_goals obtain rfl := Except.ok.inj h
    all_goals exact hs
  | createSpendingProposal sender token amount recipient descr now =>
    simp only [vaultStep, Vault.createSpendingProposal] at h
    split_ifs at h <;>
      (dsimp only [Except.map] at h;
       first
         | exact Except.noConfusion h
         | (obtain rfl := Except.ok.inj h; exact hs))
  | approveSpendingProposal sender pid now ok =>
    simp only [vaultStep, Vault.approveSpendingProposal] at h
    split_ifs at h with h1 h2 h3 h4 h5 h6 h7
    · rw [execInternal_req _ pid ok s1 h]
      exact hs
    · obtain rfl := Except.ok.inj h
      exact hs
  | executeSpendingProposal pid ok =>
    simp only [vaultStep, Vault.executeSpendingProposal] at h
    split_ifs at h
    rw [execInternal_req _ pid ok s1 h]
    exact hs
  | addSigner sender signer =>
    simp only [vaultStep, Vault.addSigner] at h
    split_ifs at h
    all_goals obtain rfl := Except.ok.inj h
    all_goals exact hs
  | removeSigner sender signer =>
    simp only [vaultStep, Vault.removeSigner] at h
    split_ifs at h
    all_goals obtain rfl := Except.ok.inj h
    all_goals exact hs
  | updateWithdrawalLimit sender n =>
    simp only [vaultStep, Vault.updateWithdrawalLimit] at h
    split_ifs at h
    all_goals obtain rfl := Except.ok.inj h
    all_goals exact hs
  | updateRequiredSignatures sender n =>
    simp only [vaultStep, Vault.updateRequiredSignatures] at h
    split_ifs at h with a1 a2 a3
    obtain rfl := Except.ok.inj h
    exact a2
  | emergencyPause sender =>
    simp only [vaultStep, Vault.emergencyPause] at h
    split_ifs at h
    all_goals obtain rfl := Except.ok.inj h
    all_goals exact hs
  | unpause sender =>
    simp only [vaultStep, Vault.unpause] at h
    split_ifs at h
    all_goals obtain rfl := Except.ok.inj h
    all_goals exact hs
  | receiveETH v =>
    simp only [vaultStep] at h
    obtain rfl := Except.ok.inj h
    rw [Vault.receiveETH]
    split <;> exact hs
  | transferOwnership sender newOwner =>
    simp only [vaultStep, Vault.transferOwnership] at h
    split_ifs at h
    all_goals obtain rfl := Except.ok.inj h
    all_goals exact hs

/-- Runs keep `requiredSignatures ≥ 1` (reverting calls change nothing). -/
theorem vaultRun_req_lower (s : VaultState) (ops : List VaultOp)
    (hs : 1 ≤ s.requiredSignatures) : 1 ≤ (vaultRun s ops).requiredSignatures := by
  induction ops generalizing s with
  | nil => exact hs
  | cons op ops ih =>
    rw [vaultRun, List.foldl_cons]
    cases hstep : vaultStep s op with
    | ok s1 => exact ih s1 (vaultStep_req_lower s op s1 hstep hs)
    | error e => exact ih s hs

/-- C3 (amended): in every state reachable from a constructed vault,
`requiredSignatures ≥ 1`, and every successful `updateRequiredSignatures`
leaves `requiredSignatures` at most the signer count; but the constructor
enforces only the lower bound, so a freshly created vault can start with
`requiredSignatures` above its signer count (see the counterexample). -/
theorem vault_requiredSignatures_invariant (sender dao : Addr) (w r : Nat)
    (s0 : VaultState) (h0 : Vault.construct sender dao w r = .ok s0)
    (ops : List VaultOp) :
    1 ≤ (vaultRun s0 ops).requiredSignatures
    ∧ (∀ (t t1 : VaultState) (who : Addr) (n : Nat),
        Vault.updateRequiredSignatures t who n = .ok t1 →
        1 ≤ t1.requiredSignatures ∧ t1.requiredSignatures ≤ t1.signerList.length) := by
  constructor
  · have hs0 : 1 ≤ s0.requiredSignatures := by
      rw [Vault.construct] at h0
      split_ifs at h0 with a1 a2
      obtain rfl := Except.ok.inj h0
      exact a2
    exact vaultRun_req_lower s0 ops hs0
  · intro t t1 who n h
    rw [Vault.updateRequiredSignatures] at h
    split_ifs at h with b1 b2 b3
    obtain rfl := Except.ok.inj h
    exact ⟨b2, b3⟩

/-- The witness vault: one signer, one required signature. -/
def c3s0 : VaultState :=
  { owner := 6, paused := false, daoAddress := 9, withdrawalLimit := 10,
    requiredSignatures := 1, spendingProposalCount := 0, authorizedSigners := [6],
    signerList := [6], spendingProposals := [], tokenBalances := [],
    supportedTokens := [] }

/-- Witness ops: a deposit and an update of the signature requirement. -/
def c3Ops : List VaultOp := [VaultOp.depositETH 5, VaultOp.updateRequiredSignatures 6 1]

/-- Witness for `vault_requiredSignatures_invariant` at concrete inputs. -/
theorem vault_requiredSignatures_invariant_witness :
    1 ≤ (vaultRun c3s0 c3Ops).requiredSignatures
    ∧ (1 ≤ ({ c3s0 with requiredSignatures := 1 } : VaultState).requiredSignatures
      ∧ ({ c3s0 with requiredSignatures := 1 } : VaultState).requiredSignatures
          ≤ ({ c3s0 with requiredSignatures := 1 } : VaultState).signerList.length) := by
  have hc : Vault.construct 6 9 10 1 = .ok c3s0 := rfl
  have hu : Vault.updateRequiredSignatures c3s0 6 1 =
      .ok { c3s0 with requiredSignatures := 1 } := rfl
  have h := vault_requiredSignatures_invariant 6 9 10 1 c3s0 hc c3Ops
  exact ⟨h.1, h.2 c3s0 { c3s0 with requiredSignatures := 1 } 6 1 hu⟩
